import Mathlib

/-!
Formal model of `src/app/(tabs)/wallet/NFCHandler.tsx` (Project-SKAM).

The component lets a user pick one of their wallet cards and write it to an
NFC tag/peer.  We embed:

* the `CardData` record type (fields `id`, `firstName`, `lastName`, `type`,
  `phone`, optional `workNumber`);
* the payload encoding of the write path, `JSON.stringify(selectedCard)`,
  as a character-level serializer `stringifyCardChars`, together with the
  inverse parser (the receiving side is absent from the repository and is
  modelled from the spec);
* the component's operations (`fetchCards`, `startNFC`, `stopNFC`,
  `writeNfcTag`, `handleCardSelection`, `handleShare`) as pure state
  transformers that also emit a trace of external effects (alerts, NFC
  manager calls, host callbacks), with the outcomes of the external NFC
  library calls supplied as environment parameters.

The controller is in the spec's `Idle` state exactly when
`sessionActive = false`.
-/

/-- The closed set of card categories, `type: 'Student' | 'Work' | 'Personal'`. -/
inductive CardType
  | Student
  | Work
  | Personal
  deriving DecidableEq, Repr

/-- Serialization of a `CardType` to the string literal used in the source. -/
def cardTypeStr : CardType → String
  | .Student => "Student"
  | .Work => "Work"
  | .Personal => "Personal"

/-- The `CardData` interface of the source.  `workNumber?: string` is an
optional field, hence `Option String`. -/
structure CardData where
  id : String
  firstName : String
  lastName : String
  type : CardType
  phone : String
  workNumber : Option String
  deriving DecidableEq, Repr

/-! ### JSON serialization of a card

`writeNfcTag` serializes the selected card with `JSON.stringify`.  We model
the produced text at the character level, including JSON string escaping
(`"` and `\` are backslash-escaped; the control characters with short
escapes use them; the remaining control characters use `\u00XX`).  Fields
appear in interface declaration order and an absent `workNumber` is
omitted, as `JSON.stringify` omits `undefined` properties. -/

/-- Opening brace character. -/
def obrace : Char := Char.ofNat 123

/-- Closing brace character. -/
def cbrace : Char := Char.ofNat 125

/-- Backspace control character (U+0008). -/
def bsC : Char := Char.ofNat 8

/-- Horizontal tab control character (U+0009). -/
def tabC : Char := Char.ofNat 9

/-- Line feed control character (U+000A). -/
def nlC : Char := Char.ofNat 10

/-- Form feed control character (U+000C). -/
def ffC : Char := Char.ofNat 12

/-- Carriage return control character (U+000D). -/
def crC : Char := Char.ofNat 13

/-- Lower-case hexadecimal digit for a value below 16. -/
def hexDigitChar (n : Nat) : Char :=
  if n < 10 then Char.ofNat (48 + n) else Char.ofNat (87 + n)

/-- JSON escaping of one character inside a string literal, as performed by
`JSON.stringify`. -/
def escapeChar (c : Char) : List Char :=
  if c = '"' then ['\\', '"']
  else if c = '\\' then ['\\', '\\']
  else if c = bsC then ['\\', 'b']
  else if c = tabC then ['\\', 't']
  else if c = nlC then ['\\', 'n']
  else if c = ffC then ['\\', 'f']
  else if c = crC then ['\\', 'r']
  else if c.toNat < 32 then
    ['\\', 'u', '0', '0', hexDigitChar (c.toNat / 16), hexDigitChar (c.toNat % 16)]
  else [c]

/-- JSON escaping of a character sequence. -/
def escList (l : List Char) : List Char := l.flatMap escapeChar

/-- A JSON string literal: quote, escaped content, quote. -/
def jstr (s : String) : List Char := ('"' :: escList s.data) ++ ['"']

/-- One `"key":"value"` pair of the serialized card. -/
def kvPair (k v : String) : List Char := jstr k ++ [':'] ++ jstr v

/-- Character sequence produced by `JSON.stringify(selectedCard)`. -/
def stringifyCardChars (c : CardData) : List Char :=
  [obrace] ++ kvPair "id" c.id ++ [','] ++ kvPair "firstName" c.firstName ++ [','] ++
    kvPair "lastName" c.lastName ++ [','] ++ kvPair "type" (cardTypeStr c.type) ++ [','] ++
    kvPair "phone" c.phone ++
    (match c.workNumber with
      | some w => [','] ++ kvPair "workNumber" w
      | none => []) ++ [cbrace]

/-- The serialized card as a `String`, the argument of `Ndef.textRecord`. -/
def jsonStringifyCard (c : CardData) : String := String.mk (stringifyCardChars c)

/-! ### The inverse parser

Modelled from the spec: the receiving side is not part of the repository;
the spec states that "the receiving side is expected to parse that same
representation back into a Card".  `parseCard` is that inverse parser for
the textual representation emitted by `stringifyCardChars`. -/

/-- Value of one hexadecimal digit character. -/
def hexVal (c : Char) : Option Nat :=
  if 48 ≤ c.toNat ∧ c.toNat ≤ 57 then some (c.toNat - 48)
  else if 97 ≤ c.toNat ∧ c.toNat ≤ 102 then some (c.toNat - 87)
  else if 65 ≤ c.toNat ∧ c.toNat ≤ 70 then some (c.toNat - 55)
  else none

/-- Prepend a decoded character to the result of parsing the remainder of a
string body. -/
def pcons (c : Char) (r : Option (List Char × List Char)) :
    Option (List Char × List Char) :=
  r.map fun p => (c :: p.1, p.2)

/-- Parse the body of a JSON string literal (after the opening quote) up to
its closing quote, undoing the escaping; returns the decoded content and
the input remaining after the closing quote. -/
def parseStringBody : List Char → Option (List Char × List Char)
  | [] => none
  | c :: rest =>
    if c = '"' then some ([], rest)
    else if c = '\\' then
      match rest with
      | [] => none
      | e :: rest2 =>
        if e = '"' then pcons '"' (parseStringBody rest2)
        else if e = '\\' then pcons '\\' (parseStringBody rest2)
        else if e = 'b' then pcons bsC (parseStringBody rest2)
        else if e = 't' then pcons tabC (parseStringBody rest2)
        else if e = 'n' then pcons nlC (parseStringBody rest2)
        else if e = 'f' then pcons ffC (parseStringBody rest2)
        else if e = 'r' then pcons crC (parseStringBody rest2)
        else if e = 'u' then
          match rest2 with
          | h1 :: h2 :: h3 :: h4 :: rest3 =>
            match hexVal h1, hexVal h2, hexVal h3, hexVal h4 with
            | some v1, some v2, some v3, some v4 =>
              pcons (Char.ofNat (((v1 * 16 + v2) * 16 + v3) * 16 + v4))
                (parseStringBody rest3)
            | _, _, _, _ => none
          | _ => none
        else none
    else pcons c (parseStringBody rest)

/-- Consume an expected literal character sequence from the input. -/
def expectLit : List Char → List Char → Option (List Char)
  | [], s => some s
  | _ :: _, [] => none
  | p :: ps, c :: cs => if c = p then expectLit ps cs else none

/-- Parse one `"key":"value"` pair for a fixed expected key; returns the
decoded value content and the remaining input. -/
def parseKV (key : String) (l : List Char) : Option (List Char × List Char) :=
  match expectLit (jstr key ++ [':', '"']) l with
  | some l2 => parseStringBody l2
  | none => none

/-- Parse a card category from its serialized form. -/
def parseCardType (l : List Char) : Option CardType :=
  if l = "Student".data then some .Student
  else if l = "Work".data then some .Work
  else if l = "Personal".data then some .Personal
  else none

/-- Parse the tail of the serialized card after the `phone` value: either
the closing brace (no `workNumber`), or a `workNumber` pair and the closing
brace. -/
def parseTail (l : List Char) : Option (Option String) :=
  match l with
  | [] => none
  | c :: r =>
    if c = cbrace then (if r = [] then some none else none)
    else if c = ',' then
      match parseKV "workNumber" r with
      | some (wnv, l11) => if l11 = [cbrace] then some (some (String.mk wnv)) else none
      | none => none
    else none

/-- The inverse parser: decode a serialized card back into a `CardData`. -/
def parseCard (l : List Char) : Option CardData := do
  let l1 ← expectLit [obrace] l
  let (idv, l2) ← parseKV "id" l1
  let l3 ← expectLit [','] l2
  let (fnv, l4) ← parseKV "firstName" l3
  let l5 ← expectLit [','] l4
  let (lnv, l6) ← parseKV "lastName" l5
  let l7 ← expectLit [','] l6
  let (tyv, l8) ← parseKV "type" l7
  let ty ← parseCardType tyv
  let l9 ← expectLit [','] l8
  let (phv, l10) ← parseKV "phone" l9
  let wn ← parseTail l10
  some ⟨String.mk idv, String.mk fnv, String.mk lnv, ty, String.mk phv, wn⟩

/-- The inverse parser on `String`s. -/
def parseCardStr (s : String) : Option CardData := parseCard s.data

/-! ### Round-trip lemmas for the serialization -/

theorem charOfNat_toNat (c : Char) : Char.ofNat c.toNat = c := by
  rcases c with ⟨⟨⟨n, hlt⟩⟩, hv⟩
  have hvn : Nat.isValidChar n := by
    simpa [UInt32.isValidChar, UInt32.toNat] using hv
  simp [Char.ofNat, Char.toNat, UInt32.toNat, hvn, Char.ofNatAux, BitVec.ofNatLt]

theorem hexVal_hexDigitChar : ∀ n, n < 16 → hexVal (hexDigitChar n) = some n := by
  decide

theorem stringMk_data (s : String) : String.mk s.data = s := rfl

theorem expectLit_append (p rest : List Char) : expectLit p (p ++ rest) = some rest := by
  induction p with
  | nil => rfl
  | cons c cs ih => simp [expectLit, ih]

theorem expectLit_cons (ch : Char) (rest : List Char) :
    expectLit [ch] (ch :: rest) = some rest := by
  simp [expectLit]

theorem hexValZero : hexVal '0' = some 0 := by decide

theorem parseStringBody_escape (s rest : List Char) :
    parseStringBody (escList s ++ '"' :: rest) = some (s, rest) := by
  induction s with
  | nil =>
    simp only [escList, List.flatMap_nil, List.nil_append]
    rw [parseStringBody.eq_def]
    simp
  | cons c cs ih =>
    simp only [escList, List.flatMap_cons, List.append_assoc] at ih ⊢
    by_cases h1 : c = '"'
    · subst h1
      rw [show escapeChar '"' = ['\\', '"'] by decide]
      simp only [List.cons_append, List.nil_append]
      rw [parseStringBody.eq_def]
      simp [pcons, ih]
    by_cases h2 : c = '\\'
    · subst h2
      rw [show escapeChar '\\' = ['\\', '\\'] by decide]
      simp only [List.cons_append, List.nil_append]
      rw [parseStringBody.eq_def]
      simp [pcons, ih]
    by_cases h3 : c = bsC
    · subst h3
      rw [show escapeChar bsC = ['\\', 'b'] by decide]
      simp only [List.cons_append, List.nil_append]
      rw [parseStringBody.eq_def]
      simp [pcons, ih]
    by_cases h4 : c = tabC
    · subst h4
      rw [show escapeChar tabC = ['\\', 't'] by decide]
      simp only [List.cons_append, List.nil_append]
      rw [parseStringBody.eq_def]
      simp [pcons, ih]
    by_cases h5 : c = nlC
    · subst h5
      rw [show escapeChar nlC = ['\\', 'n'] by decide]
      simp only [List.cons_append, List.nil_append]
      rw [parseStringBody.eq_def]
      simp [pcons, ih]
    by_cases h6 : c = ffC
    · subst h6
      rw [show escapeChar ffC = ['\\', 'f'] by decide]
      simp only [List.cons_append, List.nil_append]
      rw [parseStringBody.eq_def]
      simp [pcons, ih]
    by_cases h7 : c = crC
    · subst h7
      rw [show escapeChar crC = ['\\', 'r'] by decide]
      simp only [List.cons_append, List.nil_append]
      rw [parseStringBody.eq_def]
      simp [pcons, ih]
    by_cases h8 : c.toNat < 32
    · have hdiv : c.toNat / 16 < 16 := by omega
      have hmod : c.toNat % 16 < 16 := by omega
      have harith : c.toNat / 16 * 16 + c.toNat % 16 = c.toNat := by omega
      have hesc : escapeChar c =
          ['\\', 'u', '0', '0', hexDigitChar (c.toNat / 16), hexDigitChar (c.toNat % 16)] := by
        simp [escapeChar, h1, h2, h3, h4, h5, h6, h7, h8]
      rw [hesc]
      simp only [List.cons_append, List.nil_append]
      rw [parseStringBody.eq_def]
      simp [pcons, ih, hexValZero, hexVal_hexDigitChar _ hdiv, hexVal_hexDigitChar _ hmod,
        harith, charOfNat_toNat]
    · have hesc : escapeChar c = [c] := by
        simp [escapeChar, h1, h2, h3, h4, h5, h6, h7, h8]
      rw [hesc]
      simp only [List.cons_append, List.nil_append]
      rw [parseStringBody.eq_def]
      simp [h1, h2, pcons, ih]

theorem parseKV_kvPair (k v : String) (rest : List Char) :
    parseKV k (kvPair k v ++ rest) = some (v.data, rest) := by
  have hshape : kvPair k v ++ rest =
      (jstr k ++ [':', '"']) ++ (escList v.data ++ '"' :: rest) := by
    simp [kvPair, jstr]
  rw [hshape, parseKV, expectLit_append]
  exact parseStringBody_escape v.data rest

theorem parseCardType_roundtrip (t : CardType) :
    parseCardType (cardTypeStr t).data = some t := by
  cases t <;> rfl

theorem parseTail_noWork : parseTail [cbrace] = some none := by
  simp [parseTail]

theorem parseTail_withWork (w : String) :
    parseTail (',' :: (kvPair "workNumber" w ++ [cbrace])) = some (some w) := by
  have h1 : ¬(',' = cbrace) := by decide
  simp [parseTail, h1, parseKV_kvPair, stringMk_data]

set_option maxHeartbeats 1600000 in
/-- Helper: the serializer–parser round trip, shared by the payload claims. -/
theorem roundtrip_aux (c : CardData) : parseCard (stringifyCardChars c) = some c := by
  obtain ⟨i, f, l, t, p, w⟩ := c
  cases w with
  | none =>
    have hshape : stringifyCardChars ⟨i, f, l, t, p, none⟩ =
        obrace :: (kvPair "id" i ++ (',' :: (kvPair "firstName" f ++
          (',' :: (kvPair "lastName" l ++ (',' :: (kvPair "type" (cardTypeStr t) ++
            (',' :: (kvPair "phone" p ++ [cbrace]))))))))) := by
      simp [stringifyCardChars]
    rw [hshape]
    simp [parseCard, expectLit_cons, parseKV_kvPair, parseCardType_roundtrip,
      parseTail_noWork, stringMk_data]
  | some wv =>
    have hshape : stringifyCardChars ⟨i, f, l, t, p, some wv⟩ =
        obrace :: (kvPair "id" i ++ (',' :: (kvPair "firstName" f ++
          (',' :: (kvPair "lastName" l ++ (',' :: (kvPair "type" (cardTypeStr t) ++
            (',' :: (kvPair "phone" p ++
              (',' :: (kvPair "workNumber" wv ++ [cbrace]))))))))))) := by
      simp [stringifyCardChars]
    rw [hshape]
    simp [parseCard, expectLit_cons, parseKV_kvPair, parseCardType_roundtrip,
      parseTail_withWork, stringMk_data]

/-! ### The component's state, effects and operations

Each operation of the source component is embedded as a pure function from
the component state (and an environment giving the outcomes of the external
library calls) to the new component state plus the ordered list of external
effects it performs. -/

/-- An NDEF record; the write path only ever builds text records
(`Ndef.textRecord`). -/
inductive NdefRecord
  | text (content : String)
  deriving DecidableEq, Repr

/-- Externally observable effects performed by the component: NFC manager
calls, alerts, console logging, the remote read, and the host callbacks. -/
inductive Effect
  | nfcStart
  | requestTechnology
  | getTag
  | transceive (bytes : List Nat)
  | cancelTechnologyRequest
  | alert (title msg : String)
  | logWarn
  | logError
  | getDocs
  | onCardSelected (c : CardData)
  | onClose
  deriving DecidableEq, Repr

/-- State held by the component: the fetched card list, the current
Selection, and whether an NFC session is held.  The controller is `Idle`
exactly when `sessionActive = false`. -/
structure ComponentState where
  cards : List CardData
  selectedCard : Option CardData
  sessionActive : Bool
  deriving DecidableEq, Repr

/-- Outcome of one write attempt. -/
inductive WriteOutcome
  | success
  | encodeFailed
  | writeFailed
  deriving DecidableEq, Repr

/-- Outcomes of the external NFC library calls made by `writeNfcTag`: the
behaviour of `Ndef.encodeMessage` (yielding a byte sequence, or `null`, for
a message), and whether `NfcManager.transceive` resolves (`true`) or
throws (`false`). -/
structure NfcEnv where
  encodeResult : List NdefRecord → Option (List Nat)
  transmitOk : Bool

/-- Outcomes of the external NFC library calls made by `startNFC`: whether
`NfcManager.start`, `requestTechnology` and `getTag` each resolve, and
whether a tag was returned. -/
structure StartEnv where
  startOk : Bool
  requestOk : Bool
  getTagOk : Bool
  tagFound : Bool
  deriving DecidableEq, Repr

/-- Message built by the write path: a singleton list holding one text
record with the JSON-serialized card, mirroring
`[Ndef.textRecord(JSON.stringify(selectedCard))]`. -/
def buildMessage (card : CardData) : List NdefRecord :=
  [NdefRecord.text (jsonStringifyCard card)]

/-- Model of `writeNfcTag`: encode the message; if bytes were produced,
transceive them (success alert, or error log plus error alert if the
transmission throws); otherwise alert the encode failure.  The `finally`
block always calls `cancelTechnologyRequest`, so every path appends that
effect and clears `sessionActive`. -/
def writeNfcTag (env : NfcEnv) (card : CardData) (st : ComponentState) :
    ComponentState × List Effect × WriteOutcome :=
  match env.encodeResult (buildMessage card) with
  | some bytes =>
    if env.transmitOk then
      ({ st with sessionActive := false },
        [Effect.transceive bytes,
         Effect.alert "Success" "Card information has been written to the NFC tag.",
         Effect.cancelTechnologyRequest],
        WriteOutcome.success)
    else
      ({ st with sessionActive := false },
        [Effect.transceive bytes,
         Effect.logError,
         Effect.alert "Error" "Failed to write the NFC tag.",
         Effect.cancelTechnologyRequest],
        WriteOutcome.writeFailed)
  | none =>
      ({ st with sessionActive := false },
        [Effect.alert "Error" "Failed to encode the NDEF message.",
         Effect.cancelTechnologyRequest],
        WriteOutcome.encodeFailed)

/-- Model of `startNFC`: start the manager, request the Ndef technology and
read the tag, alerting if a tag is present; any throw is caught, logged and
alerted.  A session is held once `requestTechnology` has resolved. -/
def startNFC (env : StartEnv) (st : ComponentState) : ComponentState × List Effect :=
  if !env.startOk then
    (st, [Effect.nfcStart, Effect.logWarn, Effect.alert "Error" "NFC failed"])
  else if !env.requestOk then
    (st, [Effect.nfcStart, Effect.requestTechnology, Effect.logWarn,
      Effect.alert "Error" "NFC failed"])
  else if !env.getTagOk then
    ({ st with sessionActive := true },
      [Effect.nfcStart, Effect.requestTechnology, Effect.getTag, Effect.logWarn,
        Effect.alert "Error" "NFC failed"])
  else
    ({ st with sessionActive := true },
      [Effect.nfcStart, Effect.requestTechnology, Effect.getTag] ++
        (if env.tagFound then
          [Effect.alert "NFC Detected" "Another phone is nearby. Choose a card to share."]
        else []))

/-- Modelled from the spec: the hardware boundary `cancelActiveRequest()`.
The call is absent from the repository (it lives in the external
radio-abstraction library); per the spec's hardware boundary and
concurrency model, cancellation is safe in every state and resolves
without raising, so it is total and never returns an error. -/
def cancelActiveRequest (_active : Bool) : Except String Bool :=
  Except.ok false

/-- State-and-effect part of `stopNFC`: the session flag is cleared and the
only effect is the cancel call. -/
def stopNFCRun (st : ComponentState) : ComponentState × List Effect :=
  ({ st with sessionActive := false }, [Effect.cancelTechnologyRequest])

/-- Model of `stopNFC`: awaits `NfcManager.cancelTechnologyRequest()`.  Its
result is an `Except` so that "never raises an error to its caller" is a
provable statement. -/
def stopNFC (st : ComponentState) : Except String (ComponentState × List Effect) :=
  (cancelActiveRequest st.sessionActive).map fun _ => stopNFCRun st

/-- Model of `handleCardSelection`: store the chosen card in the Selection;
nothing else happens. -/
def handleCardSelection (st : ComponentState) (card : CardData) :
    ComponentState × List Effect :=
  ({ st with selectedCard := some card }, [])

/-- Model of `handleShare`: with a selected card, run the write attempt and
then unconditionally invoke the host callbacks `onCardSelected` and
`onClose`; with no selection, only alert. -/
def handleShare (env : NfcEnv) (st : ComponentState) : ComponentState × List Effect :=
  match st.selectedCard with
  | some card =>
    let r := writeNfcTag env card st
    (r.1, r.2.1 ++ [Effect.onCardSelected card, Effect.onClose])
  | none => (st, [Effect.alert "Error" "Please select a card to share."])

/-- Model of `fetchCards`: with a signed-in user, read the documents of the
user's card collection and store them, each card's `id` overwritten by the
document key (`{...doc.data(), id: doc.id}`); with no user, do nothing. -/
def fetchCards (user : Option String) (docs : List (String × CardData))
    (st : ComponentState) : ComponentState × List Effect :=
  match user with
  | some _ =>
    ({ st with cards := docs.map fun d => { d.2 with id := d.1 } }, [Effect.getDocs])
  | none => (st, [])

/-- Events driving the component: the `visible` prop turning true or false,
a card tap, the share press, and the mount-time fetch. -/
inductive Event
  | appear (env : StartEnv)
  | hide
  | select (c : CardData)
  | share (env : NfcEnv)
  | fetch (user : Option String) (docs : List (String × CardData))

/-- One step of the component: dispatch an event to the operation the
source runs for it. -/
def step (st : ComponentState) (e : Event) : ComponentState × List Effect :=
  match e with
  | .appear env => startNFC env st
  | .hide => stopNFCRun st
  | .select c => handleCardSelection st c
  | .share env => handleShare env st
  | .fetch u docs => fetchCards u docs st

/-- Run a sequence of events, accumulating the effect trace. -/
def run (st : ComponentState) : List Event → ComponentState × List Effect
  | [] => (st, [])
  | e :: es =>
    let r := step st e
    let r2 := run r.1 es
    (r2.1, r.2 ++ r2.2)

/-- Does an effect list contain a hardware transmission? -/
def hasTransceive (effs : List Effect) : Bool :=
  effs.any fun e =>
    match e with
    | .transceive _ => true
    | _ => false

/-- Is an event the share confirmation? -/
def isShareEvent (e : Event) : Bool :=
  match e with
  | .share _ => true
  | _ => false

/-! ### Sample values for concrete witnesses -/

/-- Sample card, the one named in the spec's testable property. -/
def annCard : CardData := ⟨"1", "Ann", "Lee", CardType.Work, "555-1", none⟩

/-- Component state with the modal open, `annCard` selected, session held. -/
def stSel : ComponentState := ⟨[annCard], some annCard, true⟩

/-- Component state with nothing fetched, nothing selected, no session. -/
def stEmpty : ComponentState := ⟨[], none, false⟩

/-! ### Claims -/

/-- C1: every write attempt — success, encode failure (no byte sequence),
or transmit throw — invokes `cancelTechnologyRequest` (moreover as the last
action, it being the `finally` cleanup) and leaves the controller in the
`Idle` state (`sessionActive = false`); the release is not a
success-path-only action. -/
theorem writeNfcTag_always_releases (env : NfcEnv) (card : CardData)
    (st : ComponentState) :
    Effect.cancelTechnologyRequest ∈ (writeNfcTag env card st).2.1 ∧
    ((writeNfcTag env card st).2.1).getLast? = some Effect.cancelTechnologyRequest ∧
    (writeNfcTag env card st).1.sessionActive = false := by
  rcases env with ⟨enc, tx⟩
  cases henc : enc (buildMessage card) <;> cases tx <;> simp [writeNfcTag, henc]

/-- C2: for every `CardData` (in particular the card
`{id:"1", firstName:"Ann", lastName:"Lee", type:"Work", phone:"555-1"}`),
serializing the card with the write path's payload encoding and then
applying the inverse parser reproduces the identical card. -/
theorem encode_decode_roundtrip (c : CardData) :
    parseCardStr (jsonStringifyCard c) = some c :=
  roundtrip_aux c

/-- C3: confirming share while the Selection is empty performs no session
action at all (the state is unchanged and the one and only effect is the
selection-required alert, so no write and no transmission happens). -/
theorem handleShare_empty_selection (env : NfcEnv) (st : ComponentState)
    (h : st.selectedCard = none) :
    handleShare env st = (st, [Effect.alert "Error" "Please select a card to share."]) ∧
    hasTransceive (handleShare env st).2 = false := by
  refine ⟨by simp [handleShare, h], ?_⟩
  simp [handleShare, h, hasTransceive]

theorem handleShare_empty_selection_witness :
    (stEmpty.selectedCard = none) ∧
    (handleShare ⟨fun _ => some [1], true⟩ stEmpty =
      (stEmpty, [Effect.alert "Error" "Please select a card to share."]) ∧
     hasTransceive (handleShare ⟨fun _ => some [1], true⟩ stEmpty).2 = false) :=
  ⟨rfl, handleShare_empty_selection ⟨fun _ => some [1], true⟩ stEmpty rfl⟩

/-- C4 counterexample: the claim that a failed write leaves the modal open
is false in the code: with a selected card and a transmission that throws,
the write attempt ends in `writeFailed`, yet `handleShare` still invokes
`onCardSelected` and `onClose`, closing the modal. -/
theorem handleShare_closes_on_failure_cex :
    (writeNfcTag ⟨fun _ => some [1], false⟩ annCard stSel).2.2 = WriteOutcome.writeFailed ∧
    Effect.onClose ∈ (handleShare ⟨fun _ => some [1], false⟩ stSel).2 ∧
    Effect.onCardSelected annCard ∈ (handleShare ⟨fun _ => some [1], false⟩ stSel).2 := by
  decide

/-- C4 amended: after every write attempt with a selected card — successful
or failed — `handleShare` notifies the host with the shared card and
signals the screen to close: its effect trace is the write attempt's trace
followed by `onCardSelected` and `onClose`.  (In particular the host is
notified and the screen closed after a successful write; but a failed
write closes the modal too.) -/
theorem handleShare_callbacks (env : NfcEnv) (st : ComponentState) (c : CardData)
    (h : st.selectedCard = some c) :
    (handleShare env st).2 =
      (writeNfcTag env c st).2.1 ++ [Effect.onCardSelected c, Effect.onClose] := by
  simp [handleShare, h]

theorem handleShare_callbacks_witness :
    (stSel.selectedCard = some annCard) ∧
    (handleShare ⟨fun _ => some [1], true⟩ stSel).2 =
      (writeNfcTag ⟨fun _ => some [1], true⟩ annCard stSel).2.1 ++
        [Effect.onCardSelected annCard, Effect.onClose] :=
  ⟨rfl, handleShare_callbacks ⟨fun _ => some [1], true⟩ stSel annCard rfl⟩

/-- C5 counterexample: the claim that a fetch with no signed-in identity
surfaces a user-visible error is false in the code: with `currentUser`
absent, `fetchCards` performs no effect whatsoever — its effect trace is
empty, so no alert is shown. -/
theorem fetchCards_noUser_cex :
    fetchCards none [("d1", annCard)] stEmpty = (stEmpty, []) := by
  decide

/-- C5 amended: when `fetchCards` runs with no signed-in identity it does
nothing: no remote read, no user-visible error, and the card list is left
unchanged — in particular it remains empty (its initial value). -/
theorem fetchCards_noUser (docs : List (String × CardData)) (st : ComponentState) :
    fetchCards none docs st = (st, []) ∧
    (st.cards = [] → (fetchCards none docs st).1.cards = []) := by
  refine ⟨rfl, fun h => ?_⟩
  simpa [fetchCards] using h

theorem fetchCards_noUser_witness :
    (stEmpty.cards = []) ∧
    (fetchCards none [("d1", annCard)] stEmpty).1.cards = [] :=
  ⟨rfl, (fetchCards_noUser [("d1", annCard)] stEmpty).2 rfl⟩

/-- C6: the transmitted payload for a selected card is exactly one text
record (a singleton NDEF message, no chunking), and its content is the
card's complete serialized field set — complete in that the whole card is
recoverable from the record's content by the inverse parser. -/
theorem message_single_record (c : CardData) :
    buildMessage c = [NdefRecord.text (jsonStringifyCard c)] ∧
    (buildMessage c).length = 1 ∧
    parseCardStr (jsonStringifyCard c) = some c :=
  ⟨rfl, rfl, roundtrip_aux c⟩

/-- C7: `stopNFC` is safe in every controller state: it always returns
without an error (also from `Idle` with no active session), it leaves the
controller `Idle`, and running it twice in a row yields the same state as
running it once. -/
theorem stopNFC_safe (st : ComponentState) :
    stopNFC st =
      Except.ok ({ st with sessionActive := false }, [Effect.cancelTechnologyRequest]) ∧
    (stopNFCRun (stopNFCRun st).1).1 = (stopNFCRun st).1 := by
  exact ⟨rfl, rfl⟩

/-- C8 counterexample: the claim that closing the modal clears the
Selection is false in the code: after selecting `annCard` and hiding the
modal the Selection still holds `annCard`, and it still does after the
modal is shown again. -/
theorem selection_not_cleared_cex :
    ((run stSel [Event.select annCard, Event.hide]).1).selectedCard = some annCard ∧
    ((run stSel [Event.select annCard, Event.hide,
        Event.appear ⟨true, true, true, false⟩]).1).selectedCard = some annCard := by
  decide

/-- C8 amended: the Selection is not cleared when the modal closes: hiding
the modal leaves `selectedCard` unchanged, and a subsequently reopened
modal still holds the previous selection (it is reset only when the
component unmounts, not on close). -/
theorem selection_persists (st : ComponentState) (envS : StartEnv) :
    (step st Event.hide).1.selectedCard = st.selectedCard ∧
    (step (step st Event.hide).1 (Event.appear envS)).1.selectedCard = st.selectedCard := by
  rcases envS with ⟨s, r, g, t⟩
  refine ⟨rfl, ?_⟩
  cases s <;> cases r <;> cases g <;> cases t <;>
    simp [step, startNFC, stopNFCRun]

/-- C9: tapping a card only stores it in the Selection — the state changes
in no other way and no effect is emitted; and the share confirmation is
the sole event whose step can emit a hardware transmission, so confirming
share is the only trigger of the Writing step. -/
theorem handleCardSelection_frame (st st2 : ComponentState) (c : CardData) (e : Event)
    (h : hasTransceive (step st2 e).2 = true) :
    handleCardSelection st c = ({ st with selectedCard := some c }, []) ∧
    isShareEvent e = true := by
  refine ⟨rfl, ?_⟩
  cases e with
  | share env => rfl
  | hide => simp [step, stopNFCRun, hasTransceive] at h
  | select c2 => simp [step, handleCardSelection, hasTransceive] at h
  | fetch u docs =>
    cases u <;> simp [step, fetchCards, hasTransceive] at h
  | appear envS =>
    rcases envS with ⟨s, r, g, t⟩
    cases s <;> cases r <;> cases g <;> cases t <;>
      simp [step, startNFC, hasTransceive] at h

theorem handleCardSelection_frame_witness :
    hasTransceive (step stSel (Event.share ⟨fun _ => some [0], true⟩)).2 = true ∧
    (handleCardSelection stEmpty annCard = (⟨[], some annCard, false⟩, []) ∧
     isShareEvent (Event.share ⟨fun _ => some [0], true⟩) = true) :=
  ⟨by decide,
   handleCardSelection_frame stEmpty stSel annCard (Event.share ⟨fun _ => some [0], true⟩)
     (by decide)⟩

/-- C10: every fetched card's `id` equals the key of the remote document it
was read from — the document key overwrites any `id` stored in the
document data — so documents with distinct keys yield cards with distinct
ids. -/
theorem fetchCards_id_from_key (u : String) (docs : List (String × CardData))
    (st : ComponentState) (h : (docs.map Prod.fst).Nodup) :
    ((fetchCards (some u) docs st).1.cards).map CardData.id = docs.map Prod.fst ∧
    (((fetchCards (some u) docs st).1.cards).map CardData.id).Nodup := by
  have h1 : ((fetchCards (some u) docs st).1.cards).map CardData.id =
      docs.map Prod.fst := by
    simp [fetchCards, List.map_map]
  exact ⟨h1, h1 ▸ h⟩

theorem fetchCards_id_from_key_witness :
    (([("d1", annCard), ("d2", annCard)].map Prod.fst).Nodup) ∧
    (((fetchCards (some "u") [("d1", annCard), ("d2", annCard)] stEmpty).1.cards).map
        CardData.id = [("d1", annCard), ("d2", annCard)].map Prod.fst ∧
     (((fetchCards (some "u") [("d1", annCard), ("d2", annCard)] stEmpty).1.cards).map
        CardData.id).Nodup) :=
  ⟨by decide,
   fetchCards_id_from_key "u" [("d1", annCard), ("d2", annCard)] stEmpty (by decide)⟩
